import Mathlib

/-!
# Verification of `apps/dashboards/readouts.py`

A shallow embedding of the localization-dashboard data aggregators: the
database tables (`wiki_document`, `wiki_revision`, `auth_user`) become lists
of records, and each hand-written SQL query of the module becomes a Lean
function computing the same multiset of rows, ordered and limited as the
query's `ORDER BY ... DESC` / `LIMIT` clauses dictate.  SQL `NULL` is
modelled by `Option`: a comparison or equality against `NULL` is not true,
scalar subqueries over an empty selection yield `none`, and aggregate
`MIN` / `MAX` over an empty selection yield `none`.
-/

namespace Readouts

/-- A row of `wiki_document`.  Fields that the queries compare against `NULL`
(`parent_id`, `current_revision_id`) are `Option`-valued. -/
structure Document where
  id : Nat
  parent_id : Option Nat
  locale : String
  is_localizable : Bool
  current_revision_id : Option Nat
  slug : String
  title : String
  deriving DecidableEq, Repr

/-- A row of `wiki_revision`.  `reviewed` is a nullable timestamp;
`based_on_id` is a nullable foreign key; `created` is a timestamp. -/
structure Revision where
  id : Nat
  document_id : Nat
  reviewed : Option Nat
  created : Nat
  significance : Nat
  is_approved : Bool
  based_on_id : Option Nat
  creator_id : Nat
  deriving DecidableEq, Repr

/-- A row of `auth_user`. -/
structure User where
  id : Nat
  username : String
  deriving DecidableEq, Repr

/-- The database state the module reads. -/
structure DB where
  documents : List Document
  revisions : List Revision
  users : List User
  deriving DecidableEq, Repr

/-- Django settings consumed by the module: `settings.WIKI_DEFAULT_LANGUAGE`. -/
structure Settings where
  wikiDefaultLanguage : String
  deriving DecidableEq, Repr

/-- Modelled from the spec: `MEDIUM_SIGNIFICANCE` is imported from
`wiki.models`, which is outside this module.  The spec glossary describes
significance as a severity level deciding staleness; the query comments in
the source call the major level "level-30" and describe medium as a strictly
lower severity ("a MEDIUM level of severity or higher ... knock this up to
MAJOR"). -/
def MEDIUM_SIGNIFICANCE : Nat := 20

/-- Modelled from the spec: `MAJOR_SIGNIFICANCE` is imported from
`wiki.models`, outside this module; the source's query comments identify it
with 30 ("an approved level-30 change", "where 30 is not the max signif"). -/
def MAJOR_SIGNIFICANCE : Nat := 30

/-! ## SQL ordering, limiting and aggregate helpers -/

/-- `ORDER BY key DESC` comparison on a nullable key: `a` may sit at or
before `b` in descending output iff `b ≤ a`, with `NULL` ordered last
(MySQL sorts `NULL`s last in descending order). -/
def descKeyLe (a b : Option Nat) : Bool :=
  match a, b with
  | none, _ => true
  | some _, none => false
  | some m, some n => m ≤ n

/-- Insert into a descending-sorted list (insertion sort step). -/
def insertDesc (key : α → Option Nat) (x : α) : List α → List α
  | [] => [x]
  | y :: ys => if descKeyLe (key y) (key x) then x :: y :: ys
               else y :: insertDesc key x ys

/-- `ORDER BY key DESC`: sort with `NULL`s last. -/
def sortDesc (key : α → Option Nat) : List α → List α
  | [] => []
  | x :: xs => insertDesc key x (sortDesc key xs)

/-- Effect of `Readout.limit_clause` on the result set: `max=None` and
`max=0` produce no `LIMIT` clause (Python truthiness), a positive `max`
yields `LIMIT max`. -/
def applyLimit (max : Option Nat) (l : List α) : List α :=
  match max with
  | none => l
  | some 0 => l
  | some (n + 1) => l.take (n + 1)

/-- SQL `MAX` aggregate over a selection (`none` on an empty selection). -/
def maxList : List Nat → Option Nat
  | [] => none
  | x :: xs =>
    match maxList xs with
    | none => some x
    | some m => some (Nat.max x m)

/-- SQL `MIN(id)` aggregate over a selection (`none` on an empty
selection). -/
def minList : List Nat → Option Nat
  | [] => none
  | x :: xs =>
    match minList xs with
    | none => some x
    | some m => some (Nat.min x m)

/-! ## Row formatting

`_format_row` hands each tuple to the template as a dict.  URLs produced by
`Document.get_absolute_url()` and by `sumo.urlresolvers.reverse` are kept
symbolic: the embedding records which resolver was invoked with which
arguments. -/

/-- A URL as produced by the host framework's resolvers. -/
inductive UrlRef where
  | absoluteUrl (locale slug : String)
  | reverseUrl (name : String) (args : List String)
  deriving DecidableEq, Repr

/-- The dict built by the `_format_row` implementations.  `users` is present
only in `UnreviewedReadout` rows. -/
structure RowDict where
  title : String
  url : UrlRef
  visits : Nat
  percent : Nat
  updated : Option Nat
  users : Option String
  deriving DecidableEq, Repr

/-! ## UntranslatedReadout query semantics

```
SELECT parent.slug, parent.title, wiki_revision.reviewed
FROM wiki_document parent
INNER JOIN wiki_revision ON parent.current_revision_id=wiki_revision.id
LEFT OUTER JOIN wiki_document translated ON
  parent.id=translated.parent_id AND translated.locale=%s
WHERE translated.id IS NULL AND parent.is_localizable AND parent.locale=%s
ORDER BY wiki_revision.reviewed DESC [LIMIT]
```
with params `[self.locale, settings.WIKI_DEFAULT_LANGUAGE]`.  The
`LEFT OUTER JOIN ... WHERE translated.id IS NULL` is an anti-join:
`wiki_document.id` is the non-null primary key, so a surviving row is one
with no matching `translated` document. -/

/-- Rows of the `FROM`/`JOIN`/`WHERE` part of the untranslated query:
pairs of a parent document and its current revision that pass the filter. -/
def untranslatedJoin (db : DB) (locale defLang : String) :
    List (Document × Revision) :=
  (db.documents.flatMap fun parent =>
    (db.revisions.filter fun rev =>
      decide (parent.current_revision_id = some rev.id)).map fun rev =>
        (parent, rev)).filter fun pr =>
    (!(db.documents.any fun t =>
        decide (t.parent_id = some pr.1.id) && decide (t.locale = locale))) &&
    pr.1.is_localizable && decide (pr.1.locale = defLang)

/-- Result tuples `(slug, title, reviewed)` of the untranslated query,
ordered by `reviewed DESC` and limited. -/
def untranslatedRows (db : DB) (locale defLang : String) (max : Option Nat) :
    List (String × String × Option Nat) :=
  applyLimit max (sortDesc (fun r => r.2.2)
    ((untranslatedJoin db locale defLang).map fun pr =>
      (pr.1.slug, pr.1.title, pr.2.reviewed)))

/-- `UntranslatedReadout._format_row`: routes the data through
`Document(slug=..., title=..., locale=WIKI_DEFAULT_LANGUAGE)` so `title`
comes back unchanged and the URL is the document's absolute URL. -/
def untranslatedFormatRow (defLang : String)
    (r : String × String × Option Nat) : RowDict :=
  { title := r.2.1, url := .absoluteUrl defLang r.1,
    visits := 0, percent := 0, updated := r.2.2, users := none }

/-- `UntranslatedReadout.rows(max)`: format each tuple of the query result,
in query order. -/
def untranslatedReadoutRows (db : DB) (s : Settings) (locale : String)
    (max : Option Nat) : List RowDict :=
  (untranslatedRows db locale s.wikiDefaultLanguage max).map
    (untranslatedFormatRow s.wikiDefaultLanguage)

/-! ## OutOfDateReadout / NeedingUpdatesReadout query semantics

```
SELECT transdoc.slug, transdoc.title, engrev.reviewed
FROM wiki_document transdoc
INNER JOIN wiki_revision engrev ON engrev.id=
  (SELECT min(id) FROM wiki_revision
   WHERE wiki_revision.document_id=transdoc.parent_id
   AND wiki_revision.id>
     (SELECT based_on_id FROM wiki_revision basedonrev
      WHERE basedonrev.id=transdoc.current_revision_id)
   AND wiki_revision.significance>=%s
   AND %s=
     (SELECT MAX(engsince.significance) FROM wiki_revision engsince
      WHERE engsince.document_id=transdoc.parent_id
      AND engsince.is_approved
      AND engsince.id>
        (SELECT based_on_id FROM wiki_revision basedonrev
         WHERE basedonrev.id=transdoc.current_revision_id)))
WHERE transdoc.locale=%s
ORDER BY engrev.reviewed DESC [LIMIT]
```
with params `[MEDIUM_SIGNIFICANCE, self._max_significance, self.locale]`.
`NULL` propagation: a missing or `NULL` `based_on_id`, a `NULL`
`parent_id`, a `NULL` aggregate (empty selection) each make the enclosing
comparison untrue, so the document contributes no rows. -/

/-- Scalar subquery `SELECT based_on_id FROM wiki_revision basedonrev WHERE
basedonrev.id=transdoc.current_revision_id`: `none` when the document has
no current revision or that revision's `based_on_id` is `NULL`. -/
def basedOnId (db : DB) (transdoc : Document) : Option Nat :=
  match db.revisions.find? (fun r =>
      decide (transdoc.current_revision_id = some r.id)) with
  | some r => r.based_on_id
  | none => none

/-- Selection of the `MAX(engsince.significance)` subquery: approved
revisions of the parent newer than the revision the current translation is
based on. -/
def engSince (db : DB) (transdoc : Document) : List Revision :=
  match transdoc.parent_id, basedOnId db transdoc with
  | some pid, some b =>
      db.revisions.filter fun r =>
        decide (r.document_id = pid) && r.is_approved && decide (b < r.id)
  | _, _ => []

/-- `MAX(engsince.significance)` over that selection (`none` when empty). -/
def maxApprovedSigSince (db : DB) (transdoc : Document) : Option Nat :=
  maxList ((engSince db transdoc).map fun r => r.significance)

/-- Selection of the `min(id)` subquery: parent revisions newer than the
based-on revision with significance at least `med`, under the
row-independent conjunct `maxSig = MAX(engsince.significance)` of the same
`WHERE` clause. -/
def oodCandidates (db : DB) (med maxSig : Nat) (transdoc : Document) :
    List Revision :=
  match transdoc.parent_id, basedOnId db transdoc with
  | some pid, some b =>
      db.revisions.filter fun r =>
        decide (r.document_id = pid) && decide (b < r.id) &&
        decide (med ≤ r.significance) &&
        decide (maxApprovedSigSince db transdoc = some maxSig)
  | _, _ => []

/-- The scalar `min(id)` the `engrev` join key is compared against
(`none` when the selection is empty, in which case the inner join drops
the document). -/
def oodEngrevId (db : DB) (med maxSig : Nat) (transdoc : Document) :
    Option Nat :=
  minList ((oodCandidates db med maxSig transdoc).map fun r => r.id)

/-- The row-dependent conditions of the `min(id)` subquery's `WHERE`
clause: a revision of the parent document, newer than the revision the
current translation is based on, of at least medium significance. -/
def oodSinceCond (db : DB) (d : Document) (r : Revision) : Prop :=
  ∃ pid b, d.parent_id = some pid ∧ basedOnId db d = some b ∧
    r.document_id = pid ∧ b < r.id ∧ MEDIUM_SIGNIFICANCE ≤ r.significance

/-- Contribution of one `transdoc` to the out-of-date result set: its join
with every revision whose id equals the `min(id)` scalar, subject to
`transdoc.locale=%s`. -/
def oodPerDoc (db : DB) (med maxSig : Nat) (locale : String)
    (transdoc : Document) : List (String × String × Option Nat) :=
  if transdoc.locale = locale then
    match oodEngrevId db med maxSig transdoc with
    | some mid =>
        (db.revisions.filter fun er => decide (er.id = mid)).map fun er =>
          (transdoc.slug, transdoc.title, er.reviewed)
    | none => []
  else []

/-- Result tuples of the out-of-date query, parameterized by the readout's
`_max_significance`, ordered by `engrev.reviewed DESC` and limited. -/
def outOfDateRowsGen (db : DB) (med maxSig : Nat) (locale : String)
    (max : Option Nat) : List (String × String × Option Nat) :=
  applyLimit max (sortDesc (fun r => r.2.2)
    (db.documents.flatMap (oodPerDoc db med maxSig locale)))

/-- `OutOfDateReadout`: `_max_significance = MAJOR_SIGNIFICANCE`. -/
def outOfDateRows (db : DB) (locale : String) (max : Option Nat) :
    List (String × String × Option Nat) :=
  outOfDateRowsGen db MEDIUM_SIGNIFICANCE MAJOR_SIGNIFICANCE locale max

/-- `NeedingUpdatesReadout`: inherits the query, with
`_max_significance = MEDIUM_SIGNIFICANCE`. -/
def needingUpdatesRows (db : DB) (locale : String) (max : Option Nat) :
    List (String × String × Option Nat) :=
  outOfDateRowsGen db MEDIUM_SIGNIFICANCE MEDIUM_SIGNIFICANCE locale max

/-- `OutOfDateReadout._format_row`: URL is
`reverse('wiki.edit_document', args=[slug])`. -/
def oodFormatRow (r : String × String × Option Nat) : RowDict :=
  { title := r.2.1, url := .reverseUrl "wiki.edit_document" [r.1],
    visits := 0, percent := 0, updated := r.2.2, users := none }

/-- `OutOfDateReadout.rows(max)`. -/
def outOfDateReadoutRows (db : DB) (locale : String) (max : Option Nat) :
    List RowDict :=
  (outOfDateRows db locale max).map oodFormatRow

/-- `NeedingUpdatesReadout.rows(max)`. -/
def needingUpdatesReadoutRows (db : DB) (locale : String)
    (max : Option Nat) : List RowDict :=
  (needingUpdatesRows db locale max).map oodFormatRow

/-! ## UnreviewedReadout query semantics

```
SELECT wiki_document.slug, wiki_document.title,
       MAX(wiki_revision.created) maxcreated,
       GROUP_CONCAT(DISTINCT auth_user.username
                    ORDER BY wiki_revision.id SEPARATOR ', ')
FROM wiki_document
INNER JOIN wiki_revision ON wiki_document.id=wiki_revision.document_id
INNER JOIN auth_user ON wiki_revision.creator_id=auth_user.id
WHERE wiki_revision.reviewed IS NULL
AND (wiki_document.current_revision_id IS NULL OR
     wiki_revision.id>wiki_document.current_revision_id)
AND wiki_document.locale=%s
GROUP BY wiki_document.id
ORDER BY maxcreated DESC [LIMIT]
```
with params `[self.locale]`. -/

/-- The group of (revision, user) join rows for one document: unreviewed
revisions newer than the current revision (or any, if there is no current
revision), joined with their creators. -/
def unreviewedPairs (db : DB) (d : Document) : List (Revision × User) :=
  (db.revisions.filter fun r =>
    decide (r.document_id = d.id) && decide (r.reviewed = none) &&
    (match d.current_revision_id with
     | none => true
     | some c => decide (c < r.id))).flatMap fun r =>
      (db.users.filter fun u => decide (u.id = r.creator_id)).map fun u =>
        (r, u)

/-- Ascending insertion on a `Nat` key (for `GROUP_CONCAT`'s
`ORDER BY wiki_revision.id`). -/
def insertAscNat (key : α → Nat) (x : α) : List α → List α
  | [] => [x]
  | y :: ys => if key x ≤ key y then x :: y :: ys
               else y :: insertAscNat key x ys

/-- Ascending sort on a `Nat` key. -/
def sortAscNat (key : α → Nat) : List α → List α
  | [] => []
  | x :: xs => insertAscNat key x (sortAscNat key xs)

/-- `DISTINCT`: drop repeated values, keeping first occurrences. -/
def dedupFirst (l : List String) : List String :=
  l.foldl (fun acc x => if acc.contains x then acc else acc ++ [x]) []

/-- `GROUP_CONCAT(DISTINCT auth_user.username ORDER BY wiki_revision.id
SEPARATOR ', ')` over one group. -/
def groupConcatUsers (ps : List (Revision × User)) : String :=
  String.intercalate ", "
    (dedupFirst ((sortAscNat (fun p => p.1.id) ps).map fun p => p.2.username))

/-- Contribution of one document to the unreviewed result set: one grouped
row when its group is non-empty, none otherwise. -/
def unreviewedPerDoc (db : DB) (locale : String) (d : Document) :
    List (String × String × Nat × String) :=
  if d.locale = locale then
    match maxList ((unreviewedPairs db d).map fun p => p.1.created) with
    | some mc => [(d.slug, d.title, mc, groupConcatUsers (unreviewedPairs db d))]
    | none => []
  else []

/-- Result tuples of the unreviewed query, ordered by `maxcreated DESC` and
limited. -/
def unreviewedRows (db : DB) (locale : String) (max : Option Nat) :
    List (String × String × Nat × String) :=
  applyLimit max (sortDesc (fun r => some r.2.2.1)
    (db.documents.flatMap (unreviewedPerDoc db locale)))

/-- `UnreviewedReadout._format_row`: URL is
`reverse('wiki.document_revisions', args=[slug])`, and the creators string
is passed through as `users`. -/
def unreviewedFormatRow (r : String × String × Nat × String) : RowDict :=
  { title := r.2.1, url := .reverseUrl "wiki.document_revisions" [r.1],
    visits := 0, percent := 0, updated := some r.2.2.1,
    users := some r.2.2.2 }

/-- `UnreviewedReadout.rows(max)`. -/
def unreviewedReadoutRows (db : DB) (locale : String) (max : Option Nat) :
    List RowDict :=
  (unreviewedRows db locale max).map unreviewedFormatRow

/-! ## `overview_rows` -/

/-- The dict produced for the Overview table. -/
structure OverviewRow where
  title : String
  numerator : Nat
  denominator : Nat
  percent : Int
  description : String
  deriving DecidableEq, Repr

/-- Filter of the `total` ORM count: default-language, localizable
documents with a current revision
(`Document.uncached.exclude(current_revision=None)
.filter(locale=settings.WIKI_DEFAULT_LANGUAGE, is_localizable=True)`). -/
def totalPred (s : Settings) : Document → Bool := fun d =>
  decide (d.current_revision_id ≠ none) &&
  decide (d.locale = s.wikiDefaultLanguage) && d.is_localizable

/-- Filter of the `translated` ORM count: documents of the target locale
with a current revision and a parent
(`Document.uncached.filter(locale=locale).exclude(current_revision=None)
.exclude(parent=None)`). -/
def translatedPred (locale : String) : Document → Bool := fun d =>
  decide (d.locale = locale) && decide (d.current_revision_id ≠ none) &&
  decide (d.parent_id ≠ none)

/-- `total` count. -/
def overviewTotal (db : DB) (s : Settings) : Nat :=
  (db.documents.filter (totalPred s)).length

/-- `translated` count. -/
def overviewTranslated (db : DB) (locale : String) : Nat :=
  (db.documents.filter (translatedPred locale)).length

/-- The single dict `overview_rows` builds:
`percent=(int(round(translated / float(total) * 100)) if total else 100)`,
with the float arithmetic modelled exactly over `ℚ` and Python's
round-half-away-from-zero agreeing with `round` on these non-negative
values. -/
def mkOverviewRow (translated total : Nat) : OverviewRow :=
  { title := "All Knowledge Base Articles",
    numerator := translated, denominator := total,
    percent := if total = 0 then 100
               else round ((translated : ℚ) / (total : ℚ) * 100),
    description := "How many of the approved English articles which allow translations have an approved translation into this language" }

/-- `overview_rows(locale)`. -/
def overview_rows (db : DB) (s : Settings) (locale : String) :
    List OverviewRow :=
  [mkOverviewRow (overviewTranslated db locale) (overviewTotal db s)]

/-! ## The generic `Readout` pipeline

Each concrete readout is one `(query, params)` pair (the SQL template with
the `limit_clause(max)` suffix, plus bind parameters) and one
`_format_row`.  `Readout.rows` executes the single pair on a cursor and
formats each fetched tuple in the order the database returns them. -/

/-- `Readout.limit_clause`: `' LIMIT %i' % max if max else ''` — Python
truthiness makes both `None` and `0` produce the empty clause. -/
def limit_clause (max : Option Nat) : String :=
  match max with
  | none => ""
  | some n => if n = 0 then "" else " LIMIT " ++ toString n

/-- A bind parameter of a query. -/
inductive Param where
  | pstr (s : String)
  | pnum (n : Nat)
  deriving DecidableEq, Repr

/-- Which of the module's three SQL templates a query string is
(`OutOfDateReadout` and `NeedingUpdatesReadout` share one template and
differ only in the `_max_significance` parameter). -/
inductive QueryId where
  | untranslatedQ
  | outOfDateQ
  | unreviewedQ
  deriving DecidableEq, Repr

/-- The `(query, params)` pair returned by `_query_and_params(max)`:
the SQL template with the `limit_clause(max)` suffix, and the bind
parameters. -/
structure QueryPlan where
  queryId : QueryId
  limit : Option Nat
  params : List Param
  deriving DecidableEq, Repr

/-- An SQL result cell. -/
inductive Val where
  | vs (s : String)
  | vn (n : Option Nat)
  deriving DecidableEq, Repr

/-- A fetched tuple. -/
abbrev SQLRow := List Val

/-- `cursor.execute(*query_and_params); cursor.fetchall()`: execute the one
`(query, params)` pair against the database.  `none` models a malformed
parameter list (the database driver would raise). -/
def execQuery (db : DB) (qp : QueryPlan) : Option (List SQLRow) :=
  match qp.queryId, qp.params with
  | .untranslatedQ, [.pstr locale, .pstr defLang] =>
      some ((untranslatedRows db locale defLang qp.limit).map fun r =>
        [.vs r.1, .vs r.2.1, .vn r.2.2])
  | .outOfDateQ, [.pnum med, .pnum maxSig, .pstr locale] =>
      some ((outOfDateRowsGen db med maxSig locale qp.limit).map fun r =>
        [.vs r.1, .vs r.2.1, .vn r.2.2])
  | .unreviewedQ, [.pstr locale] =>
      some ((unreviewedRows db locale qp.limit).map fun r =>
        [.vs r.1, .vs r.2.1, .vn (some r.2.2.1), .vs r.2.2.2])
  | _, _ => none

/-- Fallible formatting of every tuple, first failure aborting (a
`_format_row` tuple-unpacking mismatch raises in Python). -/
def mapOptM (f : α → Option β) : List α → Option (List β)
  | [] => some []
  | x :: xs =>
    match f x, mapOptM f xs with
    | some y, some ys => some (y :: ys)
    | _, _ => none

/-- The locale-bearing request handed to `Readout.__init__`. -/
structure Request where
  locale : String
  deriving DecidableEq, Repr

/-- `Readout.__init__`: `self.locale = locale or request.locale` — Python
`or` falls back on a missing or empty override. -/
def initLocale (request : Request) (locale : Option String) : String :=
  match locale with
  | some l => if l = "" then request.locale else l
  | none => request.locale

/-- A concrete readout: one query template + params builder, one row
formatter. -/
structure Readout where
  locale : String
  queryAndParams : Option Nat → QueryPlan
  formatRow : SQLRow → Option RowDict

/-- `Readout.rows(max)`: execute the single `(query, params)` pair from
`_query_and_params(max)` and apply `_format_row` to each fetched tuple in
the order the database returns them. -/
def Readout.rows (r : Readout) (db : DB) (max : Option Nat) :
    Option (List RowDict) :=
  match execQuery db (r.queryAndParams max) with
  | some rs => mapOptM r.formatRow rs
  | none => none

/-- `UntranslatedReadout` as a `Readout` value. -/
def UntranslatedReadout (s : Settings) (request : Request)
    (locOpt : Option String) : Readout :=
  { locale := initLocale request locOpt,
    queryAndParams := fun max =>
      ⟨.untranslatedQ, max,
       [.pstr (initLocale request locOpt), .pstr s.wikiDefaultLanguage]⟩,
    formatRow := fun row =>
      match row with
      | [.vs slug, .vs title, .vn reviewed] =>
          some (untranslatedFormatRow s.wikiDefaultLanguage
            (slug, title, reviewed))
      | _ => none }

/-- `OutOfDateReadout` as a `Readout` value
(`_max_significance = MAJOR_SIGNIFICANCE`). -/
def OutOfDateReadout (request : Request) (locOpt : Option String) :
    Readout :=
  { locale := initLocale request locOpt,
    queryAndParams := fun max =>
      ⟨.outOfDateQ, max,
       [.pnum MEDIUM_SIGNIFICANCE, .pnum MAJOR_SIGNIFICANCE,
        .pstr (initLocale request locOpt)]⟩,
    formatRow := fun row =>
      match row with
      | [.vs slug, .vs title, .vn reviewed] =>
          some (oodFormatRow (slug, title, reviewed))
      | _ => none }

/-- `NeedingUpdatesReadout`: inherits everything from `OutOfDateReadout`
except `_max_significance = MEDIUM_SIGNIFICANCE`. -/
def NeedingUpdatesReadout (request : Request) (locOpt : Option String) :
    Readout :=
  { locale := initLocale request locOpt,
    queryAndParams := fun max =>
      ⟨.outOfDateQ, max,
       [.pnum MEDIUM_SIGNIFICANCE, .pnum MEDIUM_SIGNIFICANCE,
        .pstr (initLocale request locOpt)]⟩,
    formatRow := fun row =>
      match row with
      | [.vs slug, .vs title, .vn reviewed] =>
          some (oodFormatRow (slug, title, reviewed))
      | _ => none }

/-- `UnreviewedReadout` as a `Readout` value. -/
def UnreviewedReadout (request : Request) (locOpt : Option String) :
    Readout :=
  { locale := initLocale request locOpt,
    queryAndParams := fun max =>
      ⟨.unreviewedQ, max, [.pstr (initLocale request locOpt)]⟩,
    formatRow := fun row =>
      match row with
      | [.vs slug, .vs title, .vn changed, .vs users] =>
          some { title := title,
                 url := .reverseUrl "wiki.document_revisions" [slug],
                 visits := 0, percent := 0, updated := changed,
                 users := some users }
      | _ => none }

/-! ## State-threaded execution (frame property)

Every statement the module executes is a `SELECT` (or an ORM `count()`),
so executing it returns the database unchanged. -/

/-- Executing the one statement of a query plan, returning the resulting
database state: all three templates are `SELECT`s. -/
def execQueryState (db : DB) (qp : QueryPlan) :
    Option (List SQLRow) × DB :=
  match execQuery db qp with
  | some rs => (some rs, db)
  | none => (none, db)

/-- `Readout.rows` with the database state threaded through. -/
def Readout.rowsState (r : Readout) (db : DB) (max : Option Nat) :
    Option (List RowDict) × DB :=
  match execQueryState db (r.queryAndParams max) with
  | (some rs, db2) => (mapOptM r.formatRow rs, db2)
  | (none, db2) => (none, db2)

/-- An ORM `.count()` call (a `SELECT COUNT`), state-threaded. -/
def countState (db : DB) (p : Document → Bool) : Nat × DB :=
  ((db.documents.filter p).length, db)

/-- `overview_rows` with the database state threaded through its two
`count()` calls. -/
def overviewRowsState (db : DB) (s : Settings) (locale : String) :
    List OverviewRow × DB :=
  match countState db (totalPred s) with
  | (total, db1) =>
    match countState db1 (translatedPred locale) with
    | (translated, db2) => ([mkOverviewRow translated total], db2)

/-! ## Exception propagation

The module contains no `try`/`except`: each operation is a straight-line
sequence of framework calls.  Abstracting those calls as `Except` values
makes the absence of local recovery provable: the first failing call's
exception is the operation's result, and no partial result is produced. -/

/-- Run a fallible `_format_row` over every tuple; the first exception
(e.g. a failed URL reversal) propagates. -/
def mapExceptM {E : Type} (f : α → Except E β) :
    List α → Except E (List β)
  | [] => .ok []
  | x :: xs =>
    match f x with
    | .error e => .error e
    | .ok y =>
      match mapExceptM f xs with
      | .error e => .error e
      | .ok ys => .ok (y :: ys)

/-- `Readout.rows` with its framework calls abstracted: the combined
cursor / execute / fetchall call, then the per-tuple formatter (which may
raise during URL resolution). -/
def rowsOp {E : Type} (cursorFetch : Except E (List SQLRow))
    (fmt : SQLRow → Except E RowDict) : Except E (List RowDict) :=
  match cursorFetch with
  | .error e => .error e
  | .ok rs => mapExceptM fmt rs

/-- `Readout.render`: a single `jingo.render_to_string` call, nothing
around it. -/
def renderOp {E : Type} (renderToString : Except E String) :
    Except E String :=
  renderToString

/-- `overview_rows` with its two ORM `count()` calls abstracted. -/
def overviewOp {E : Type} (totalCount translatedCount : Except E Nat) :
    Except E (List OverviewRow) :=
  match totalCount with
  | .error e => .error e
  | .ok total =>
    match translatedCount with
    | .error e => .error e
    | .ok translated => .ok [mkOverviewRow translated total]

/-! ## Concrete fixtures used by the witness theorems -/

/-- A localizable default-language document with current revision 10. -/
def docEnW : Document :=
  ⟨1, none, "en-US", true, some 10, "slug-a", "Title A"⟩

/-- Its current revision. -/
def revEnW : Revision := ⟨10, 1, some 5, 5, 10, true, none, 1⟩

/-- Settings fixture. -/
def settingsW : Settings := ⟨"en-US"⟩

/-- Request fixture. -/
def requestW : Request := ⟨"de"⟩

/-- Database with one untranslated English article. -/
def dbC1 : DB := ⟨[docEnW], [revEnW], []⟩

/-- English revision the translation is based on. -/
def revBaseW : Revision := ⟨5, 1, some 3, 3, 10, true, none, 1⟩

/-- Approved major English revision made after the based-on revision. -/
def revMajorW : Revision := ⟨10, 1, some 8, 8, 30, true, some 5, 1⟩

/-- The German translation's current revision, based on revision 5. -/
def revDeW : Revision := ⟨20, 2, some 9, 9, 10, true, some 5, 1⟩

/-- The German translation document. -/
def docDeW : Document :=
  ⟨2, some 1, "de", false, some 20, "slug-a", "Titel A"⟩

/-- Database with an out-of-date German translation. -/
def dbC2 : DB := ⟨[docEnW, docDeW], [revBaseW, revMajorW, revDeW], []⟩

/-- The empty database. -/
def dbEmpty : DB := ⟨[], [], []⟩

/-- A formatter whose framework call always raises (exception code 3). -/
def fmtErrW : SQLRow → Except Nat RowDict := fun _ => Except.error 3

/-! ## Helper lemmas -/

theorem mem_insertDesc (key : α → Option Nat) (x a : α) (l : List α) :
    a ∈ insertDesc key x l ↔ a = x ∨ a ∈ l := by
  induction l with
  | nil => simp [insertDesc]
  | cons y ys ih =>
    simp only [insertDesc]
    by_cases h : descKeyLe (key y) (key x) = true
    · rw [if_pos h]
      simp [List.mem_cons]
    · rw [if_neg h]
      simp only [List.mem_cons, ih]
      tauto

theorem mem_sortDesc (key : α → Option Nat) (a : α) (l : List α) :
    a ∈ sortDesc key l ↔ a ∈ l := by
  induction l with
  | nil => simp [sortDesc]
  | cons x xs ih => simp [sortDesc, mem_insertDesc, ih]

theorem mem_of_mem_applyLimit (max : Option Nat) (a : α) (l : List α)
    (h : a ∈ applyLimit max l) : a ∈ l := by
  cases max with
  | none => exact h
  | some n =>
    cases n with
    | zero => exact h
    | succ m => exact List.mem_of_mem_take h

theorem applyLimit_zero_eq_none (l : List α) :
    applyLimit (some 0) l = applyLimit none l := rfl

theorem length_applyLimit_le (n : Nat) (hn : 0 < n) (l : List α) :
    (applyLimit (some n) l).length ≤ n := by
  cases n with
  | zero => exact absurd hn (by simp)
  | succ m =>
    simp [applyLimit]

theorem natMax_cases (a b : Nat) : Nat.max a b = a ∨ Nat.max a b = b := by
  rcases Nat.le_total a b with h | h
  · right; exact Nat.max_eq_right h
  · left; exact Nat.max_eq_left h

theorem natMin_cases (a b : Nat) : Nat.min a b = a ∨ Nat.min a b = b := by
  rcases Nat.le_total a b with h | h
  · left; exact Nat.min_eq_left h
  · right; exact Nat.min_eq_right h

theorem maxList_eq_some_iff (l : List Nat) (m : Nat) :
    maxList l = some m ↔ m ∈ l ∧ ∀ x ∈ l, x ≤ m := by
  induction l generalizing m with
  | nil => simp [maxList]
  | cons x xs ih =>
    cases hxs : maxList xs with
    | none =>
      have hnil : xs = [] := by
        cases xs with
        | nil => rfl
        | cons y ys =>
          simp only [maxList] at hxs
          cases h : maxList ys <;> simp [h] at hxs
      subst hnil
      simp [maxList]
      omega
    | some mx =>
      have hmax : maxList (x :: xs) = some (Nat.max x mx) := by
        simp [maxList, hxs]
      rw [hmax]
      obtain ⟨hmem, hub⟩ := (ih mx).mp hxs
      constructor
      · intro h
        have hm : Nat.max x mx = m := by injection h
        subst hm
        refine ⟨?_, ?_⟩
        · rcases natMax_cases x mx with h' | h'
          · rw [h']; exact List.mem_cons_self x xs
          · rw [h']; exact List.mem_cons_of_mem x hmem
        · intro y hy
          rcases List.mem_cons.mp hy with rfl | hy2
          · exact Nat.le_max_left _ _
          · exact le_trans (hub y hy2) (Nat.le_max_right _ _)
      · rintro ⟨hm, hle⟩
        have h1 : x ≤ m := hle x (List.mem_cons_self x xs)
        have h2 : mx ≤ m := hle mx (List.mem_cons_of_mem x hmem)
        have h3 : m ≤ Nat.max x mx := by
          rcases List.mem_cons.mp hm with rfl | hm2
          · exact Nat.le_max_left _ _
          · exact le_trans (hub m hm2) (Nat.le_max_right _ _)
        exact congrArg some (Nat.le_antisymm (Nat.max_le.mpr ⟨h1, h2⟩) h3)

theorem minList_eq_some_iff (l : List Nat) (m : Nat) :
    minList l = some m ↔ m ∈ l ∧ ∀ x ∈ l, m ≤ x := by
  induction l generalizing m with
  | nil => simp [minList]
  | cons x xs ih =>
    cases hxs : minList xs with
    | none =>
      have hnil : xs = [] := by
        cases xs with
        | nil => rfl
        | cons y ys =>
          simp only [minList] at hxs
          cases h : minList ys <;> simp [h] at hxs
      subst hnil
      simp [minList]
      omega
    | some mx =>
      have hmin : minList (x :: xs) = some (Nat.min x mx) := by
        simp [minList, hxs]
      rw [hmin]
      obtain ⟨hmem, hlb⟩ := (ih mx).mp hxs
      constructor
      · intro h
        have hm : Nat.min x mx = m := by injection h
        subst hm
        refine ⟨?_, ?_⟩
        · rcases natMin_cases x mx with h' | h'
          · rw [h']; exact List.mem_cons_self x xs
          · rw [h']; exact List.mem_cons_of_mem x hmem
        · intro y hy
          rcases List.mem_cons.mp hy with rfl | hy2
          · exact Nat.min_le_left _ _
          · exact le_trans (Nat.min_le_right _ _) (hlb y hy2)
      · rintro ⟨hm, hle⟩
        have h1 : m ≤ x := hle x (List.mem_cons_self x xs)
        have h2 : m ≤ mx := hle mx (List.mem_cons_of_mem x hmem)
        have h3 : Nat.min x mx ≤ m := by
          rcases List.mem_cons.mp hm with rfl | hm2
          · exact Nat.min_le_left _ _
          · exact le_trans (Nat.min_le_right _ _) (hlb m hm2)
        exact congrArg some (Nat.le_antisymm h3 (le_min h1 h2))

theorem minList_isSome_of_mem (l : List Nat) (x : Nat) (hx : x ∈ l) :
    ∃ m, minList l = some m := by
  cases l with
  | nil => cases hx
  | cons y ys =>
    cases h : minList ys with
    | none => exact ⟨y, by simp [minList, h]⟩
    | some m => exact ⟨Nat.min y m, by simp [minList, h]⟩

theorem mem_engSince (db : DB) (d : Document) (r : Revision) :
    r ∈ engSince db d ↔ ∃ pid b, d.parent_id = some pid ∧
      basedOnId db d = some b ∧ r ∈ db.revisions ∧ r.document_id = pid ∧
      r.is_approved = true ∧ b < r.id := by
  cases hp : d.parent_id with
  | none => simp [engSince, hp]
  | some pid =>
    cases hb : basedOnId db d with
    | none => simp [engSince, hp, hb]
    | some b =>
      simp only [engSince, hp, hb, List.mem_filter, Bool.and_eq_true,
        decide_eq_true_eq, Option.some.injEq]
      constructor
      · rintro ⟨hm, ⟨h1, h2⟩, h3⟩
        exact ⟨pid, b, rfl, rfl, hm, h1, h2, h3⟩
      · rintro ⟨pid2, b2, hpe, hbe, hm, h1, h2, h3⟩
        subst hpe
        subst hbe
        exact ⟨hm, ⟨h1, h2⟩, h3⟩

theorem maxApprovedSigSince_attained (db : DB) (d : Document) (m : Nat)
    (h : maxApprovedSigSince db d = some m) :
    ∃ r, r ∈ engSince db d ∧ r.significance = m ∧
      ∀ q ∈ engSince db d, q.significance ≤ m := by
  have h2 : maxList ((engSince db d).map fun r => r.significance) = some m := h
  obtain ⟨hmem, hub⟩ := (maxList_eq_some_iff _ _).mp h2
  obtain ⟨r, hr, hrs⟩ := List.mem_map.mp hmem
  exact ⟨r, hr, hrs, fun q hq => hub _ (List.mem_map.mpr ⟨q, hq, rfl⟩)⟩

theorem mem_oodCandidates (db : DB) (med maxSig : Nat) (d : Document)
    (r : Revision) :
    r ∈ oodCandidates db med maxSig d ↔
      (∃ pid b, d.parent_id = some pid ∧ basedOnId db d = some b ∧
        r ∈ db.revisions ∧ r.document_id = pid ∧ b < r.id ∧
        med ≤ r.significance) ∧
      maxApprovedSigSince db d = some maxSig := by
  cases hp : d.parent_id with
  | none => simp [oodCandidates, hp]
  | some pid =>
    cases hb : basedOnId db d with
    | none => simp [oodCandidates, hp, hb]
    | some b =>
      simp only [oodCandidates, hp, hb, List.mem_filter, Bool.and_eq_true,
        decide_eq_true_eq, Option.some.injEq]
      constructor
      · rintro ⟨hm, ⟨⟨h1, h2⟩, h3⟩, h4⟩
        exact ⟨⟨pid, b, rfl, rfl, hm, h1, h2, h3⟩, h4⟩
      · rintro ⟨⟨pid2, b2, hpe, hbe, hm, h1, h2, h3⟩, h4⟩
        subst hpe
        subst hbe
        exact ⟨hm, ⟨⟨h1, h2⟩, h3⟩, h4⟩

theorem oodCandidates_nonempty (db : DB) (med maxSig : Nat) (d : Document)
    (hms : med ≤ maxSig) (hmax : maxApprovedSigSince db d = some maxSig) :
    ∃ r, r ∈ oodCandidates db med maxSig d := by
  obtain ⟨r, hr, hrs, _⟩ := maxApprovedSigSince_attained db d maxSig hmax
  obtain ⟨pid, b, hp, hb, hmem, hdoc, _, hlt⟩ := (mem_engSince db d r).mp hr
  exact ⟨r, (mem_oodCandidates db med maxSig d r).mpr
    ⟨⟨pid, b, hp, hb, hmem, hdoc, hlt, by omega⟩, hmax⟩⟩

theorem oodPerDoc_ne_nil_iff (db : DB) (med maxSig : Nat) (locale : String)
    (d : Document) (hms : med ≤ maxSig) :
    oodPerDoc db med maxSig locale d ≠ [] ↔
      d.locale = locale ∧ maxApprovedSigSince db d = some maxSig := by
  by_cases hloc : d.locale = locale
  · simp only [oodPerDoc, if_pos hloc]
    cases hmid : oodEngrevId db med maxSig d with
    | none =>
      simp only [ne_eq, not_true_eq_false, false_iff, not_and]
      intro _ hmax
      obtain ⟨r, hr⟩ := oodCandidates_nonempty db med maxSig d hms hmax
      obtain ⟨mm, hmm⟩ := minList_isSome_of_mem
        ((oodCandidates db med maxSig d).map fun c => c.id) r.id
        (List.mem_map.mpr ⟨r, hr, rfl⟩)
      have : oodEngrevId db med maxSig d = some mm := hmm
      rw [hmid] at this
      exact Option.noConfusion this
    | some mid =>
      have hmm : minList ((oodCandidates db med maxSig d).map fun c => c.id)
          = some mid := hmid
      have hmem := ((minList_eq_some_iff _ _).mp hmm).1
      obtain ⟨c, hc, hcid⟩ := List.mem_map.mp hmem
      obtain ⟨⟨pid, b, _, _, hcrev, _, _, _⟩, hmax⟩ :=
        (mem_oodCandidates db med maxSig d c).mp hc
      constructor
      · intro _
        exact ⟨hloc, hmax⟩
      · intro _
        exact List.ne_nil_of_mem (List.mem_map.mpr
          ⟨c, List.mem_filter.mpr ⟨hcrev, by simp [hcid]⟩, rfl⟩)
  · simp [oodPerDoc, hloc]

theorem mem_oodPerDoc (db : DB) (med maxSig : Nat) (locale : String)
    (d : Document) (row : String × String × Option Nat) :
    row ∈ oodPerDoc db med maxSig locale d ↔
      d.locale = locale ∧ ∃ mid er, oodEngrevId db med maxSig d = some mid ∧
        er ∈ db.revisions ∧ er.id = mid ∧
        row = (d.slug, d.title, er.reviewed) := by
  by_cases hloc : d.locale = locale
  · simp only [oodPerDoc, if_pos hloc]
    cases hmid : oodEngrevId db med maxSig d with
    | none => simp [hloc]
    | some mid =>
      simp only [List.mem_map, List.mem_filter, decide_eq_true_eq, hloc,
        true_and, Option.some.injEq]
      constructor
      · rintro ⟨er, ⟨hermem, herid⟩, heq⟩
        exact ⟨mid, er, rfl, hermem, herid, heq.symm⟩
      · rintro ⟨mid2, er, hmide, hermem, herid, heq⟩
        subst hmide
        exact ⟨er, ⟨hermem, herid⟩, heq.symm⟩
  · simp [oodPerDoc, hloc]

theorem oodPerDoc_subset_rows (db : DB) (med maxSig : Nat) (locale : String)
    (d : Document) (hd : d ∈ db.documents)
    (row : String × String × Option Nat)
    (hrow : row ∈ oodPerDoc db med maxSig locale d) :
    row ∈ outOfDateRowsGen db med maxSig locale none := by
  unfold outOfDateRowsGen
  simp only [applyLimit]
  rw [mem_sortDesc]
  exact List.mem_flatMap.mpr ⟨d, hd, hrow⟩

theorem mapOptM_map (f : β → Option γ) (g : α → β) (h : α → γ)
    (hx : ∀ x, f (g x) = some (h x)) (l : List α) :
    mapOptM f (l.map g) = some (l.map h) := by
  induction l with
  | nil => rfl
  | cons x xs ih => simp [mapOptM, hx, ih]

theorem execQueryState_snd (db : DB) (qp : QueryPlan) :
    (execQueryState db qp).2 = db := by
  unfold execQueryState
  cases execQuery db qp <;> rfl

theorem rowsState_snd (r : Readout) (db : DB) (max : Option Nat) :
    (r.rowsState db max).2 = db := by
  unfold Readout.rowsState
  have h := execQueryState_snd db (r.queryAndParams max)
  rcases hq : execQueryState db (r.queryAndParams max) with ⟨res, db2⟩
  rw [hq] at h
  cases res <;> simpa using h

theorem mapExceptM_error {E : Type} (f : α → Except E β) (l : List α) (e : E)
    (h : mapExceptM f l = Except.error e) :
    ∃ x, x ∈ l ∧ f x = Except.error e := by
  induction l with
  | nil => simp [mapExceptM] at h
  | cons x xs ih =>
    simp only [mapExceptM] at h
    cases hfx : f x with
    | error e2 =>
      rw [hfx] at h
      injection h with he
      subst he
      exact ⟨x, List.mem_cons_self x xs, hfx⟩
    | ok y =>
      rw [hfx] at h
      cases hrest : mapExceptM f xs with
      | error e2 =>
        rw [hrest] at h
        injection h with he
        subst he
        obtain ⟨z, hz, hfz⟩ := ih hrest
        exact ⟨z, List.mem_cons_of_mem x hz, hfz⟩
      | ok ys =>
        rw [hrest] at h
        exact Except.noConfusion h

theorem mapExceptM_ok {E : Type} (f : α → Except E β) (l : List α)
    (h : ∀ x, x ∈ l → ∃ y, f x = Except.ok y) :
    ∃ ys, mapExceptM f l = Except.ok ys := by
  induction l with
  | nil => exact ⟨[], rfl⟩
  | cons x xs ih =>
    obtain ⟨y, hy⟩ := h x (List.mem_cons_self x xs)
    obtain ⟨ys, hys⟩ := ih fun z hz => h z (List.mem_cons_of_mem x hz)
    exact ⟨y :: ys, by simp [mapExceptM, hy, hys]⟩

/-! ## Claim theorems -/

/-- C1: Every row returned by `UntranslatedReadout.rows(max)` for a locale
corresponds to a document in the default language
(`settings.WIKI_DEFAULT_LANGUAGE`) that is localizable, has a current
revision, and has no translated child document in that locale. -/
theorem untranslated_rows_sound (db : DB) (s : Settings) (locale : String)
    (max : Option Nat) (rd : RowDict)
    (hrd : rd ∈ untranslatedReadoutRows db s locale max) :
    ∃ parent rev, parent ∈ db.documents ∧ rev ∈ db.revisions ∧
      parent.locale = s.wikiDefaultLanguage ∧ parent.is_localizable = true ∧
      parent.current_revision_id = some rev.id ∧
      (¬ ∃ t, t ∈ db.documents ∧ t.parent_id = some parent.id ∧
        t.locale = locale) ∧
      rd = untranslatedFormatRow s.wikiDefaultLanguage
        (parent.slug, parent.title, rev.reviewed) := by
  unfold untranslatedReadoutRows at hrd
  obtain ⟨row, hrow, hfmt⟩ := List.mem_map.mp hrd
  unfold untranslatedRows at hrow
  have h1 := mem_of_mem_applyLimit max row _ hrow
  rw [mem_sortDesc] at h1
  obtain ⟨pr, hpr, hrow2⟩ := List.mem_map.mp h1
  unfold untranslatedJoin at hpr
  obtain ⟨hprmem, hcond⟩ := List.mem_filter.mp hpr
  obtain ⟨parent, hparent, hpr2⟩ := List.mem_flatMap.mp hprmem
  obtain ⟨rev, hrev, hpreq⟩ := List.mem_map.mp hpr2
  obtain ⟨hrevmem, hcur⟩ := List.mem_filter.mp hrev
  subst hpreq
  simp only [Bool.and_eq_true, Bool.not_eq_true', List.any_eq_false,
    decide_eq_true_eq] at hcond
  obtain ⟨⟨hany, hlocz⟩, hlocale⟩ := hcond
  have hcurr : parent.current_revision_id = some rev.id :=
    of_decide_eq_true hcur
  refine ⟨parent, rev, hparent, hrevmem, hlocale, hlocz, hcurr, ?_, ?_⟩
  · rintro ⟨t, ht, htp, htl⟩
    have := hany t ht
    simp [htp, htl] at this
  · rw [← hfmt, ← hrow2]

/-- Witness for C1 on a concrete database. -/
theorem untranslated_rows_sound_witness :
    ∃ parent rev, parent ∈ dbC1.documents ∧ rev ∈ dbC1.revisions ∧
      parent.locale = settingsW.wikiDefaultLanguage ∧
      parent.is_localizable = true ∧
      parent.current_revision_id = some rev.id ∧
      (¬ ∃ t, t ∈ dbC1.documents ∧ t.parent_id = some parent.id ∧
        t.locale = "de") ∧
      untranslatedFormatRow "en-US" ("slug-a", "Title A", some 5) =
        untranslatedFormatRow settingsW.wikiDefaultLanguage
          (parent.slug, parent.title, rev.reviewed) :=
  untranslated_rows_sound dbC1 settingsW "de" none
    (untranslatedFormatRow "en-US" ("slug-a", "Title A", some 5)) (by decide)

theorem oodPerDoc_appears_iff (db : DB) (med maxSig : Nat) (locale : String)
    (d : Document) (hms : med ≤ maxSig) (hloc : d.locale = locale) :
    (∃ rv, (d.slug, d.title, rv) ∈ oodPerDoc db med maxSig locale d) ↔
      maxApprovedSigSince db d = some maxSig := by
  constructor
  · rintro ⟨rv, h⟩
    exact ((oodPerDoc_ne_nil_iff db med maxSig locale d hms).mp
      (List.ne_nil_of_mem h)).2
  · intro hmax
    have hne := (oodPerDoc_ne_nil_iff db med maxSig locale d hms).mpr
      ⟨hloc, hmax⟩
    obtain ⟨row, hrow⟩ := List.exists_mem_of_ne_nil _ hne
    obtain ⟨_, mid, er, _, _, _, heq⟩ :=
      (mem_oodPerDoc db med maxSig locale d row).mp hrow
    exact ⟨er.reviewed, heq ▸ hrow⟩

/-- C2: a translated document of the given locale appears in
`OutOfDateReadout.rows` exactly when the maximum significance of approved
revisions of its parent made since the revision its current translation is
based on equals `MAJOR_SIGNIFICANCE`, and in `NeedingUpdatesReadout.rows`
exactly when that maximum equals `MEDIUM_SIGNIFICANCE`; the reported
"out of date since" timestamp is the reviewed time of the revision holding
the minimal id among the parent's revisions made since the based-on
revision with at least `MEDIUM_SIGNIFICANCE`. -/
theorem staleness_by_significance (db : DB) (locale : String) (d : Document)
    (hd : d ∈ db.documents) (hloc : d.locale = locale) :
    ((∃ rv, (d.slug, d.title, rv) ∈
        oodPerDoc db MEDIUM_SIGNIFICANCE MAJOR_SIGNIFICANCE locale d) ↔
      maxApprovedSigSince db d = some MAJOR_SIGNIFICANCE)
    ∧ ((∃ rv, (d.slug, d.title, rv) ∈
        oodPerDoc db MEDIUM_SIGNIFICANCE MEDIUM_SIGNIFICANCE locale d) ↔
      maxApprovedSigSince db d = some MEDIUM_SIGNIFICANCE)
    ∧ (∀ row, row ∈
        oodPerDoc db MEDIUM_SIGNIFICANCE MAJOR_SIGNIFICANCE locale d →
        row ∈ outOfDateRows db locale none)
    ∧ (∀ row, row ∈
        oodPerDoc db MEDIUM_SIGNIFICANCE MEDIUM_SIGNIFICANCE locale d →
        row ∈ needingUpdatesRows db locale none)
    ∧ (∀ rv, (d.slug, d.title, rv) ∈
        oodPerDoc db MEDIUM_SIGNIFICANCE MAJOR_SIGNIFICANCE locale d →
        ∃ er, er ∈ db.revisions ∧ rv = er.reviewed ∧
          (∃ c, c ∈ db.revisions ∧ c.id = er.id ∧ oodSinceCond db d c) ∧
          (∀ r, r ∈ db.revisions → oodSinceCond db d r → er.id ≤ r.id)) := by
  refine ⟨oodPerDoc_appears_iff db _ _ locale d (by decide) hloc,
    oodPerDoc_appears_iff db _ _ locale d (le_refl _) hloc,
    fun row h => oodPerDoc_subset_rows db _ _ locale d hd row h,
    fun row h => oodPerDoc_subset_rows db _ _ locale d hd row h, ?_⟩
  intro rv h
  have hmax : maxApprovedSigSince db d = some MAJOR_SIGNIFICANCE :=
    ((oodPerDoc_ne_nil_iff db _ _ locale d (by decide)).mp
      (List.ne_nil_of_mem h)).2
  obtain ⟨_, mid, er, hmid, hermem, herid, heq⟩ :=
    (mem_oodPerDoc db _ _ locale d _).mp h
  have hrv : rv = er.reviewed := by
    simpa using congrArg (fun p => p.2.2) heq
  have hml : minList ((oodCandidates db MEDIUM_SIGNIFICANCE
      MAJOR_SIGNIFICANCE d).map fun c => c.id) = some mid := hmid
  obtain ⟨hmemmid, hlb⟩ := (minList_eq_some_iff _ _).mp hml
  obtain ⟨c, hc, hcid⟩ := List.mem_map.mp hmemmid
  obtain ⟨⟨pid, b, hp, hb, hcrev, hcdoc, hclt, hcsig⟩, _⟩ :=
    (mem_oodCandidates _ _ _ _ _).mp hc
  refine ⟨er, hermem, hrv,
    ⟨c, hcrev, by rw [hcid, herid], ⟨pid, b, hp, hb, hcdoc, hclt, hcsig⟩⟩,
    ?_⟩
  intro r hr hcond
  obtain ⟨pid2, b2, hp2, hb2, hdoc2, hlt2, hsig2⟩ := hcond
  have hrc : r ∈ oodCandidates db MEDIUM_SIGNIFICANCE MAJOR_SIGNIFICANCE d :=
    (mem_oodCandidates _ _ _ _ _).mpr
      ⟨⟨pid2, b2, hp2, hb2, hr, hdoc2, hlt2, hsig2⟩, hmax⟩
  have hle := hlb r.id (List.mem_map.mpr ⟨r, hrc, rfl⟩)
  rw [herid]
  exact hle

/-- Witness for C2 on a concrete database with an out-of-date German
translation. -/
theorem staleness_by_significance_witness :
    (∃ rv, (docDeW.slug, docDeW.title, rv) ∈
        oodPerDoc dbC2 MEDIUM_SIGNIFICANCE MAJOR_SIGNIFICANCE "de" docDeW) ↔
      maxApprovedSigSince dbC2 docDeW = some MAJOR_SIGNIFICANCE :=
  (staleness_by_significance dbC2 "de" docDeW (by decide) (by decide)).1

/-- C10: for every database state and locale, no document is returned by
both `OutOfDateReadout` and `NeedingUpdatesReadout`: at least one of its
two per-document contributions is empty, since one maximum significance
cannot equal both `MAJOR_SIGNIFICANCE` and `MEDIUM_SIGNIFICANCE`. -/
theorem ood_needing_disjoint (db : DB) (locale : String) (d : Document) :
    oodPerDoc db MEDIUM_SIGNIFICANCE MAJOR_SIGNIFICANCE locale d = [] ∨
    oodPerDoc db MEDIUM_SIGNIFICANCE MEDIUM_SIGNIFICANCE locale d = [] := by
  by_cases h1 :
      oodPerDoc db MEDIUM_SIGNIFICANCE MAJOR_SIGNIFICANCE locale d = []
  · exact Or.inl h1
  · right
    by_contra h2
    have hmaj := ((oodPerDoc_ne_nil_iff db _ _ locale d (by decide)).mp h1).2
    have hmed := ((oodPerDoc_ne_nil_iff db _ _ locale d (le_refl _)).mp h2).2
    rw [hmaj] at hmed
    have heq : MAJOR_SIGNIFICANCE = MEDIUM_SIGNIFICANCE := by
      injection hmed
    exact absurd heq (by decide)

/-- C3: every concrete readout is a single `(query, params)` pair and a
single row formatter: `rows(max)` executes the one pair from
`_query_and_params(max)` and equals `_format_row` mapped over the fetched
tuples in the order the database returns them. -/
theorem readout_single_query_pair (s : Settings) (request : Request)
    (locOpt : Option String) (db : DB) (max : Option Nat) :
    (UntranslatedReadout s request locOpt).rows db max =
      some ((untranslatedRows db (initLocale request locOpt)
        s.wikiDefaultLanguage max).map
        (untranslatedFormatRow s.wikiDefaultLanguage))
    ∧ (OutOfDateReadout request locOpt).rows db max =
      some ((outOfDateRows db (initLocale request locOpt) max).map
        oodFormatRow)
    ∧ (NeedingUpdatesReadout request locOpt).rows db max =
      some ((needingUpdatesRows db (initLocale request locOpt) max).map
        oodFormatRow)
    ∧ (UnreviewedReadout request locOpt).rows db max =
      some ((unreviewedRows db (initLocale request locOpt) max).map
        unreviewedFormatRow) := by
  refine ⟨?_, ?_, ?_, ?_⟩
  · show mapOptM (UntranslatedReadout s request locOpt).formatRow
      ((untranslatedRows db (initLocale request locOpt)
        s.wikiDefaultLanguage max).map fun r =>
        [Val.vs r.1, Val.vs r.2.1, Val.vn r.2.2]) = _
    exact mapOptM_map (UntranslatedReadout s request locOpt).formatRow
      (fun r : String × String × Option Nat =>
        [Val.vs r.1, Val.vs r.2.1, Val.vn r.2.2])
      (untranslatedFormatRow s.wikiDefaultLanguage) (fun x => rfl) _
  · show mapOptM (OutOfDateReadout request locOpt).formatRow
      ((outOfDateRows db (initLocale request locOpt) max).map fun r =>
        [Val.vs r.1, Val.vs r.2.1, Val.vn r.2.2]) = _
    exact mapOptM_map (OutOfDateReadout request locOpt).formatRow
      (fun r : String × String × Option Nat =>
        [Val.vs r.1, Val.vs r.2.1, Val.vn r.2.2])
      oodFormatRow (fun x => rfl) _
  · show mapOptM (NeedingUpdatesReadout request locOpt).formatRow
      ((needingUpdatesRows db (initLocale request locOpt) max).map fun r =>
        [Val.vs r.1, Val.vs r.2.1, Val.vn r.2.2]) = _
    exact mapOptM_map (NeedingUpdatesReadout request locOpt).formatRow
      (fun r : String × String × Option Nat =>
        [Val.vs r.1, Val.vs r.2.1, Val.vn r.2.2])
      oodFormatRow (fun x => rfl) _
  · show mapOptM (UnreviewedReadout request locOpt).formatRow
      ((unreviewedRows db (initLocale request locOpt) max).map fun r =>
        [Val.vs r.1, Val.vs r.2.1, Val.vn (some r.2.2.1), Val.vs r.2.2.2]) = _
    exact mapOptM_map (UnreviewedReadout request locOpt).formatRow
      (fun r : String × String × Nat × String =>
        [Val.vs r.1, Val.vs r.2.1, Val.vn (some r.2.2.1), Val.vs r.2.2.2])
      unreviewedFormatRow (fun x => rfl) _

/-- C4: `overview_rows(locale)` returns one row whose numerator counts the
locale's documents with a current revision and a parent, whose denominator
counts localizable default-language documents with a current revision, and
whose percent is `round(100 * numerator / denominator)` when the
denominator is nonzero (100 otherwise). -/
theorem overview_rows_correct (db : DB) (s : Settings) (locale : String) :
    overview_rows db s locale =
      [{ title := "All Knowledge Base Articles",
         numerator := (db.documents.filter fun d =>
           decide (d.locale = locale) &&
           decide (d.current_revision_id ≠ none) &&
           decide (d.parent_id ≠ none)).length,
         denominator := (db.documents.filter fun d =>
           decide (d.current_revision_id ≠ none) &&
           decide (d.locale = s.wikiDefaultLanguage) &&
           d.is_localizable).length,
         percent := if (db.documents.filter fun d =>
             decide (d.current_revision_id ≠ none) &&
             decide (d.locale = s.wikiDefaultLanguage) &&
             d.is_localizable).length = 0 then 100
           else round (100 * ((db.documents.filter fun d =>
             decide (d.locale = locale) &&
             decide (d.current_revision_id ≠ none) &&
             decide (d.parent_id ≠ none)).length : ℚ) /
             ((db.documents.filter fun d =>
             decide (d.current_revision_id ≠ none) &&
             decide (d.locale = s.wikiDefaultLanguage) &&
             d.is_localizable).length : ℚ)),
         description := "How many of the approved English articles which allow translations have an approved translation into this language" }] := by
  have hpercent : ∀ t T : Nat,
      (if T = 0 then (100 : ℤ) else round ((t : ℚ) / (T : ℚ) * 100)) =
      (if T = 0 then 100 else round (100 * (t : ℚ) / (T : ℚ))) := by
    intro t T
    by_cases h : T = 0
    · simp [h]
    · rw [if_neg h, if_neg h]
      congr 1
      ring
  simp only [overview_rows, mkOverviewRow, overviewTranslated, overviewTotal,
    totalPred, translatedPred, hpercent]
  rfl

/-- C5: every operation only reads the database: executing any query plan,
any readout's `rows`, and `overview_rows` leaves the `Document`,
`Revision` and `User` records unchanged. -/
theorem module_reads_only (db : DB) (s : Settings) (locale : String)
    (request : Request) (locOpt : Option String) (max : Option Nat)
    (qp : QueryPlan) :
    (execQueryState db qp).2 = db
    ∧ ((UntranslatedReadout s request locOpt).rowsState db max).2 = db
    ∧ ((OutOfDateReadout request locOpt).rowsState db max).2 = db
    ∧ ((NeedingUpdatesReadout request locOpt).rowsState db max).2 = db
    ∧ ((UnreviewedReadout request locOpt).rowsState db max).2 = db
    ∧ (overviewRowsState db s locale).2 = db :=
  ⟨execQueryState_snd db qp, rowsState_snd _ db max, rowsState_snd _ db max,
   rowsState_snd _ db max, rowsState_snd _ db max, rfl⟩

/-- C6: no operation contains local error recovery: with the framework
calls abstracted as fallible computations, an exception from the cursor /
query execution, from URL resolution inside the formatter, from template
rendering, or from either ORM count propagates unchanged, a raising
operation yields no partial result, and an operation succeeds exactly when
its underlying calls succeed. -/
theorem no_local_error_recovery (E : Type) (fmt : SQLRow → Except E RowDict) :
    (∀ e, rowsOp (Except.error e) fmt = Except.error e)
    ∧ (∀ rs e, rowsOp (Except.ok rs) fmt = Except.error e →
        ∃ x, x ∈ rs ∧ fmt x = Except.error e)
    ∧ (∀ rs, (∀ x, x ∈ rs → ∃ y, fmt x = Except.ok y) →
        ∃ ys, rowsOp (Except.ok rs) fmt = Except.ok ys)
    ∧ (∀ x : Except E String, renderOp x = x)
    ∧ (∀ e c, overviewOp (Except.error e) c =
        (Except.error e : Except E (List OverviewRow)))
    ∧ (∀ t e, overviewOp (Except.ok t) (Except.error e) =
        (Except.error e : Except E (List OverviewRow)))
    ∧ (∀ t tr, overviewOp (Except.ok t) (Except.ok tr) =
        (Except.ok [mkOverviewRow tr t] : Except E (List OverviewRow))) := by
  refine ⟨fun e => rfl, ?_, ?_, fun x => rfl, fun e c => rfl,
    fun t e => rfl, fun t tr => rfl⟩
  · intro rs e h
    exact mapExceptM_error fmt rs e h
  · intro rs h
    exact mapExceptM_ok fmt rs h

/-- Witness for C6: a raising formatter call propagates its exception. -/
theorem no_local_error_recovery_witness :
    ∃ x, x ∈ ([[]] : List SQLRow) ∧ fmtErrW x = Except.error 3 :=
  (no_local_error_recovery Nat fmtErrW).2.1 [[]] 3 rfl

/-- C7: every readout and `overview_rows` is deterministic: over the pure
embedding (no shared mutable state outside the database), two evaluations
on the same database, request, locale and max produce equal results. -/
theorem readouts_deterministic (db : DB) (s : Settings) (request : Request)
    (locOpt : Option String) (locale : String) (max : Option Nat) :
    (UntranslatedReadout s request locOpt).rows db max =
      (UntranslatedReadout s request locOpt).rows db max
    ∧ (OutOfDateReadout request locOpt).rows db max =
      (OutOfDateReadout request locOpt).rows db max
    ∧ (NeedingUpdatesReadout request locOpt).rows db max =
      (NeedingUpdatesReadout request locOpt).rows db max
    ∧ (UnreviewedReadout request locOpt).rows db max =
      (UnreviewedReadout request locOpt).rows db max
    ∧ overview_rows db s locale = overview_rows db s locale :=
  ⟨rfl, rfl, rfl, rfl, rfl⟩

/-- C8: the percentage computation is guarded: the rounded quotient is
produced only when the denominator `total` is nonzero, and a zero total
yields exactly 100. -/
theorem overview_percent_guard (db : DB) (s : Settings) (locale : String) :
    (overviewTotal db s = 0 →
      (overview_rows db s locale).map (fun r => r.percent) = [100])
    ∧ (overviewTotal db s ≠ 0 →
      (overview_rows db s locale).map (fun r => r.percent) =
        [round ((overviewTranslated db locale : ℚ) /
          (overviewTotal db s : ℚ) * 100)]) := by
  constructor
  · intro h
    simp [overview_rows, mkOverviewRow, h]
  · intro h
    simp [overview_rows, mkOverviewRow, h]

/-- Witness for C8: on the empty database the total is zero and the
percent is 100. -/
theorem overview_percent_guard_witness :
    (overview_rows dbEmpty settingsW "de").map (fun r => r.percent) =
      [100] :=
  (overview_percent_guard dbEmpty settingsW "de").1 rfl

/-- C9: `limit_clause` yields `' LIMIT n'` for positive `n` and the empty
string for `None` and for `0`; `rows(0)` applies no limit at all; a
positive `max` bounds every readout's row count by `max`. -/
theorem limit_clause_and_bounds (n : Nat) (hn : 0 < n) (db : DB)
    (s : Settings) (locale : String) :
    limit_clause (some n) = " LIMIT " ++ toString n
    ∧ limit_clause none = ""
    ∧ limit_clause (some 0) = ""
    ∧ untranslatedReadoutRows db s locale (some 0) =
        untranslatedReadoutRows db s locale none
    ∧ outOfDateReadoutRows db locale (some 0) =
        outOfDateReadoutRows db locale none
    ∧ needingUpdatesReadoutRows db locale (some 0) =
        needingUpdatesReadoutRows db locale none
    ∧ unreviewedReadoutRows db locale (some 0) =
        unreviewedReadoutRows db locale none
    ∧ (untranslatedReadoutRows db s locale (some n)).length ≤ n
    ∧ (outOfDateReadoutRows db locale (some n)).length ≤ n
    ∧ (needingUpdatesReadoutRows db locale (some n)).length ≤ n
    ∧ (unreviewedReadoutRows db locale (some n)).length ≤ n := by
  refine ⟨?_, rfl, rfl, rfl, rfl, rfl, rfl, ?_, ?_, ?_, ?_⟩
  · have h : n ≠ 0 := Nat.pos_iff_ne_zero.mp hn
    simp [limit_clause, h]
  · simp only [untranslatedReadoutRows, untranslatedRows, List.length_map]
    exact length_applyLimit_le n hn _
  · simp only [outOfDateReadoutRows, outOfDateRows, outOfDateRowsGen,
      List.length_map]
    exact length_applyLimit_le n hn _
  · simp only [needingUpdatesReadoutRows, needingUpdatesRows,
      outOfDateRowsGen, List.length_map]
    exact length_applyLimit_le n hn _
  · simp only [unreviewedReadoutRows, unreviewedRows, List.length_map]
    exact length_applyLimit_le n hn _

/-- Witness for C9 at `max = 2`. -/
theorem limit_clause_and_bounds_witness :
    0 < 2 ∧ limit_clause (some 2) = " LIMIT " ++ toString 2 :=
  ⟨by decide, (limit_clause_and_bounds 2 (by decide) dbC1 settingsW "de").1⟩

end Readouts
